import Mathlib

set_option maxRecDepth 100000

/-!
Shallow embedding of the github-webhook-resource `out` script (bin/out.js).

The script reads a JSON resource configuration from stdin, composes the
Concourse check-webhook callback URL, lists the hooks registered on the
GitHub repository, and reconciles: create / update / leave alone / delete.
Remote HTTP calls are modelled by their request descriptions (RemoteCall)
together with environment-supplied responses; stdout emission is modelled
by the emitted version id, and process exit by an exit code.
-/

namespace GithubWebhookResource

/-- JS truthiness of an optional string value: undefined/null and the empty
string are falsy, every other string is truthy. -/
def jsTruthyStr : Option String → Bool
  | none => false
  | some s => !(s == "")

/-- The value of an optional string under JS truthiness defaulting, as in
the source expression: params.pipeline ? params.pipeline : fallback. -/
def jsStrOr (o : Option String) (fallback : String) : String :=
  if jsTruthyStr o then o.getD "" else fallback

/-- Ambient build environment (process.env) as read by bin/out.js.
The BUILD_PIPELINE_INSTANCE_VARS variable is modelled together with the
outcome of JSON.parse on it: absent, present-but-malformed (the error
string), or present and parsed to a list of key/value entries in object
iteration order. -/
structure BuildEnv where
  build_team_name : String
  build_pipeline_name : String
  atc_external_url : String
  build_pipeline_instance_vars : Option (Except String (List (String × String)))

/-- The source section of the resource configuration (bin/out.js line 35). -/
structure Source where
  concourse_url : Option String
  github_api : String
  github_token : String

/-- The params section of the resource configuration (bin/out.js line 36).
events is the raw input list (absent modelled as none, before the
defaulting and de-duplication at lines 38-43); pipeline_instance_vars is
an optional JSON object modelled as entries in iteration order. -/
structure Params where
  org : String
  repo : String
  operation : String
  pipeline : Option String
  resource_name : String
  webhook_token : String
  events : Option (List String)
  pipeline_instance_vars : Option (List (String × String))

/-- An existing hook as returned by the GitHub list endpoint: numeric id,
a config JSON object (modelled as key/value entries), and an event list. -/
structure Hook where
  id : Nat
  config : List (String × String)
  events : List String
deriving DecidableEq, Repr

/-- The request body sent on create/update (bin/out.js lines 94-98). -/
structure HookBody where
  name : String
  config : List (String × String)
  events : List String
deriving DecidableEq, Repr

/-- A remote HTTP request issued by the script, identified by method, uri
and (for writes) body. -/
inductive RemoteCall where
  | get (uri : String)
  | post (uri : String) (body : HookBody)
  | patch (uri : String) (body : HookBody)
  | delete (uri : String)
deriving DecidableEq, Repr

/-- Observable outcome of a run: the remote calls issued in order, the
version id emitted on stdout (none when nothing is printed to stdout),
and the process exit code. -/
structure RunOutcome where
  calls : List RemoteCall
  emitted : Option String
  exitCode : Nat
deriving DecidableEq, Repr

/-- Hex digit character, uppercase, as produced by JS percent-encoding. -/
def hexDigitUpper (n : Nat) : Char :=
  if n < 10 then Char.ofNat (48 + n) else Char.ofNat (55 + n)

/-- Percent-encoding of a single byte, e.g. 34 becomes %22. -/
def percentByte (b : Nat) : String :=
  String.mk ['%', hexDigitUpper (b / 16), hexDigitUpper (b % 16)]

/-- UTF-8 bytes of a Unicode code point. -/
def utf8Bytes (n : Nat) : List Nat :=
  if n < 0x80 then [n]
  else if n < 0x800 then [0xC0 + n / 64, 0x80 + n % 64]
  else if n < 0x10000 then [0xE0 + n / 4096, 0x80 + n / 64 % 64, 0x80 + n % 64]
  else [0xF0 + n / 262144, 0x80 + n / 4096 % 64, 0x80 + n / 64 % 64, 0x80 + n % 64]

/-- The characters JS encodeURI leaves unescaped besides ASCII letters and
digits (the apostrophe is written by code point). -/
def uriSafePunct : List Char :=
  [';', ',', '/', '?', ':', '@', '&', '=', '+', '$', '-', '_', '.', '!', '~',
   '*', Char.ofNat 39, '(', ')', '#']

/-- Whether JS encodeURI leaves the character unescaped. -/
def uriUnescaped (c : Char) : Bool :=
  c.isAlpha || c.isDigit || uriSafePunct.contains c

/-- Encoding of one character under JS encodeURI. -/
def encodeURIChar (c : Char) : String :=
  if uriUnescaped c then String.singleton c
  else String.join ((utf8Bytes c.toNat).map percentByte)

/-- JS encodeURI: percent-encode every character outside the unreserved and
reserved sets, via its UTF-8 bytes. -/
def encodeURI (s : String) : String :=
  String.join (s.data.map encodeURIChar)

/-- The double-quote character, which buildInstanceVariables places around
each instance-variable value. -/
def dq : String := String.singleton (Char.ofNat 34)

/-- One query fragment produced for an instance variable entry, as in
bin/out.js lines 63 and 72. -/
def fragment (kv : String × String) : String :=
  "&vars." ++ kv.1 ++ "=" ++ dq ++ kv.2 ++ dq

/-- Concatenation of the fragments of a list of entries, in order. -/
def fragStr (kvs : List (String × String)) : String :=
  String.join (kvs.map fragment)

/-- buildInstanceVariables (bin/out.js lines 57-79): first the fragments of
the ambient BUILD_PIPELINE_INSTANCE_VARS object (a JSON.parse failure is
rethrown as an error), then the fragments of params.pipeline_instance_vars
when present and truthy; plain string concatenation, no merging. -/
def buildInstanceVariables (env : BuildEnv) (params : Params) :
    Except String String :=
  match env.build_pipeline_instance_vars with
  | some (Except.error e) => Except.error e
  | some (Except.ok kvs) =>
      match params.pipeline_instance_vars with
      | none => Except.ok (fragStr kvs)
      | some pvs => Except.ok (fragStr kvs ++ fragStr pvs)
  | none =>
      match params.pipeline_instance_vars with
      | none => Except.ok ""
      | some pvs => Except.ok (fragStr pvs)

/-- The part of the callback URL after the base host prefix, shared by both
branches of buildUrl (bin/out.js lines 51 and 54): path template, the
webhook_token query parameter, and the instance-variable fragments. -/
def urlTail (env : BuildEnv) (params : Params) (instanceVars : String) : String :=
  "/api/v1/teams/" ++ env.build_team_name ++ "/pipelines/" ++
    jsStrOr params.pipeline env.build_pipeline_name ++ "/resources/" ++
    params.resource_name ++ "/check/webhook?webhook_token=" ++
    params.webhook_token ++ instanceVars

/-- buildUrl (bin/out.js lines 48-55): base is source.concourse_url when
truthy, else the ambient ATC external URL; the whole string is passed
through encodeURI. Errors from buildInstanceVariables propagate. -/
def buildUrl (env : BuildEnv) (source : Source) (params : Params) :
    Except String String :=
  match buildInstanceVariables env params with
  | Except.error e => Except.error e
  | Except.ok ivs =>
      if jsTruthyStr source.concourse_url then
        Except.ok (encodeURI (source.concourse_url.getD "" ++ urlTail env params ivs))
      else
        Except.ok (encodeURI (env.atc_external_url ++ urlTail env params ivs))

/-- Helper for the JS Set-based de-duplication: drop every element already
seen, keeping first occurrences in order. -/
def dedupAux (seen : List String) : List String → List String
  | [] => []
  | x :: xs => if x ∈ seen then dedupAux seen xs else x :: dedupAux (x :: seen) xs

/-- De-duplication with JS Set semantics (bin/out.js line 43): keep the
first occurrence of each element, preserving insertion order. -/
def jsSetDedup (l : List String) : List String :=
  dedupAux [] l

/-- The desired event list actually used by the run (bin/out.js lines
38-43): default to a singleton push list when the input list is absent or
empty, then de-duplicate with Set semantics. -/
def desiredEvents (events : Option (List String)) : List String :=
  jsSetDedup (match events with
    | none => ["push"]
    | some l => if l.isEmpty then ["push"] else l)

/-- Lookup of a key in a JSON object modelled as a key/value entry list
(first binding wins; JS objects have unique keys). -/
def lookupKV (obj : List (String × String)) (k : String) : Option String :=
  (obj.find? (fun kv => kv.1 == k)).map (fun kv => kv.2)

/-- The lodash isMatch partial comparison as used at bin/out.js line 101:
every key/value entry of the desired config must be present with an equal
value in the hook config object; extra keys of the hook config are
ignored. -/
def isMatch (obj : List (String × String)) (src : List (String × String)) : Bool :=
  src.all (fun kv => lookupKV obj kv.1 == some kv.2)

/-- The desired hook config built at bin/out.js lines 89-92. -/
def mkConfig (url : String) : List (String × String) :=
  [("url", url), ("content-type", "json")]

/-- The request body built at bin/out.js lines 94-98. -/
def mkBody (url : String) (events : List String) : HookBody :=
  { name := "web", config := mkConfig url, events := events }

/-- The hooks endpoint of the repository (bin/out.js line 83). -/
def webhookEndpoint (source : Source) (params : Params) : String :=
  source.github_api ++ "/repos/" ++ params.org ++ "/" ++ params.repo ++ "/hooks"

/-- Lexicographic comparison of character lists by code point, the order
underlying the JS string comparison used by lodash sortBy. -/
def charListLe : List Char → List Char → Bool
  | [], _ => true
  | _ :: _, [] => false
  | c :: cs, d :: ds =>
    if c.toNat < d.toNat then true
    else if d.toNat < c.toNat then false
    else charListLe cs ds

/-- Lexicographic string order as a relation. -/
def strLe (a b : String) : Prop := charListLe a.data b.data = true

instance : DecidableRel strLe :=
  fun a b => instDecidableEqBool (charListLe a.data b.data) true

/-- The lodash sortBy of a string list with no iteratee: sort ascending.
Any total order yields the same derived equality test (permutation
equivalence), so the lexicographic order above is used. -/
def sortEvents (l : List String) : List String :=
  List.insertionSort strLe l

/-- The event comparison at bin/out.js line 107: lodash isEqual of the two
sorted arrays. -/
def eventsEqual (a b : List String) : Bool :=
  sortEvents a == sortEvents b

/-- Whether a remote call is a write (create, update or delete). -/
def isWrite : RemoteCall → Bool
  | RemoteCall.get _ => false
  | _ => true

/-- Number of write calls in an outcome. -/
def countWrites (o : RunOutcome) : Nat :=
  o.calls.countP (fun c => isWrite c)

/-- processWebhook (bin/out.js lines 81-123) together with the fates of the
remote calls it triggers. listResp is the outcome of the GET on the hooks
endpoint (bin/out.js lines 100, 125-128); writeResp is the parsed response
body of the single write call, when one is issued and succeeds; now models
Date.now() at bin/out.js line 117. An error thrown by buildUrl rejects the
async function before any remote call: no call is made, nothing is emitted
and the process dies with a non-zero code. Every emit is immediately
followed by process.exit(0) (bin/out.js line 208), every remote failure by
process.exit(1) (line 194), so a run issues the GET, then at most one
write, and emits at most one version id. -/
def processWebhook (env : BuildEnv) (source : Source) (params : Params)
    (listResp : Except Unit (List Hook)) (writeResp : Except Unit Hook)
    (now : Nat) : RunOutcome :=
  match buildUrl env source params with
  | Except.error _ => ⟨[], none, 1⟩
  | Except.ok url =>
    let ep := webhookEndpoint source params
    let config := mkConfig url
    let body := mkBody url (desiredEvents params.events)
    match listResp with
    | Except.error _ => ⟨[RemoteCall.get ep], none, 1⟩
    | Except.ok hooks =>
      match hooks.find? (fun hook => isMatch hook.config config) with
      | none =>
          if params.operation == "create" then
            match writeResp with
            | Except.error _ => ⟨[RemoteCall.get ep, RemoteCall.post ep body], none, 1⟩
            | Except.ok h => ⟨[RemoteCall.get ep, RemoteCall.post ep body], some (Nat.repr h.id), 0⟩
          else if params.operation == "delete" then
            ⟨[RemoteCall.get ep], some (Nat.repr now), 0⟩
          else
            ⟨[RemoteCall.get ep], none, 0⟩
      | some existingHook =>
          if params.operation == "create" then
            if eventsEqual existingHook.events (desiredEvents params.events) then
              ⟨[RemoteCall.get ep], some (Nat.repr existingHook.id), 0⟩
            else
              match writeResp with
              | Except.error _ =>
                  ⟨[RemoteCall.get ep,
                    RemoteCall.patch (ep ++ "/" ++ Nat.repr existingHook.id) body], none, 1⟩
              | Except.ok h =>
                  ⟨[RemoteCall.get ep,
                    RemoteCall.patch (ep ++ "/" ++ Nat.repr existingHook.id) body],
                   some (Nat.repr h.id), 0⟩
          else if params.operation == "delete" then
            match writeResp with
            | Except.error _ =>
                ⟨[RemoteCall.get ep,
                  RemoteCall.delete (ep ++ "/" ++ Nat.repr existingHook.id)], none, 1⟩
            | Except.ok _ =>
                ⟨[RemoteCall.get ep,
                  RemoteCall.delete (ep ++ "/" ++ Nat.repr existingHook.id)],
                 some (Nat.repr existingHook.id), 0⟩
          else
            ⟨[RemoteCall.get ep], none, 0⟩

/-- The three shapes the stdin handler distinguishes (bin/out.js lines
18-46): empty input, input that fails JSON.parse or validation, and a
validated resource configuration. -/
inductive StdinInput where
  | empty
  | malformed
  | valid (source : Source) (params : Params)

/-- The whole run (bin/out.js lines 18-46): empty stdin logs and returns
(normal exit, nothing on stdout); a parse or validation error exits 1;
otherwise processWebhook runs on the validated source and params. -/
def runModel (env : BuildEnv) (stdin : StdinInput)
    (listResp : Except Unit (List Hook)) (writeResp : Except Unit Hook)
    (now : Nat) : RunOutcome :=
  match stdin with
  | StdinInput.empty => ⟨[], none, 0⟩
  | StdinInput.malformed => ⟨[], none, 1⟩
  | StdinInput.valid source params => processWebhook env source params listResp writeResp now

/-- Number of (possibly overlapping) occurrences of needle as a substring
of hay. -/
def countSubstr (needle hay : String) : Nat :=
  ((List.range (hay.data.length + 1)).filter
    (fun i => needle.data.isPrefixOf (hay.data.drop i))).length

/-! Helper lemmas about the embedded definitions. -/

theorem mem_dedupAux (y : String) : ∀ (seen l : List String),
    y ∈ dedupAux seen l ↔ y ∈ l ∧ y ∉ seen
  | seen, [] => by simp [dedupAux]
  | seen, x :: xs => by
    by_cases hx : x ∈ seen
    · rw [show dedupAux seen (x :: xs) = dedupAux seen xs from by simp [dedupAux, hx],
        mem_dedupAux y seen xs, List.mem_cons]
      constructor
      · rintro ⟨h1, h2⟩; exact ⟨Or.inr h1, h2⟩
      · rintro ⟨h1 | h1, h2⟩
        · exact absurd (h1 ▸ hx) h2
        · exact ⟨h1, h2⟩
    · rw [show dedupAux seen (x :: xs) = x :: dedupAux (x :: seen) xs from by
        simp [dedupAux, hx], List.mem_cons, mem_dedupAux y (x :: seen) xs,
        List.mem_cons, List.mem_cons]
      by_cases hyx : y = x
      · subst hyx; simp [hx]
      · simp [hyx]

theorem dedupAux_sublist : ∀ (seen l : List String), (dedupAux seen l).Sublist l
  | _, [] => List.Sublist.refl _
  | seen, x :: xs => by
    by_cases hx : x ∈ seen
    · rw [show dedupAux seen (x :: xs) = dedupAux seen xs from by simp [dedupAux, hx]]
      exact (dedupAux_sublist seen xs).cons x
    · rw [show dedupAux seen (x :: xs) = x :: dedupAux (x :: seen) xs from by
        simp [dedupAux, hx]]
      exact (dedupAux_sublist (x :: seen) xs).cons₂ x

theorem dedupAux_nodup : ∀ (seen l : List String), (dedupAux seen l).Nodup
  | _, [] => List.nodup_nil
  | seen, x :: xs => by
    by_cases hx : x ∈ seen
    · rw [show dedupAux seen (x :: xs) = dedupAux seen xs from by simp [dedupAux, hx]]
      exact dedupAux_nodup seen xs
    · rw [show dedupAux seen (x :: xs) = x :: dedupAux (x :: seen) xs from by
        simp [dedupAux, hx]]
      refine List.Nodup.cons ?_ (dedupAux_nodup (x :: seen) xs)
      intro hmem
      exact ((mem_dedupAux x (x :: seen) xs).mp hmem).2 (List.mem_cons_self x seen)

theorem jsSetDedup_nodup (l : List String) : (jsSetDedup l).Nodup :=
  dedupAux_nodup [] l

theorem jsSetDedup_sublist (l : List String) : (jsSetDedup l).Sublist l :=
  dedupAux_sublist [] l

theorem mem_jsSetDedup (y : String) (l : List String) : y ∈ jsSetDedup l ↔ y ∈ l := by
  rw [jsSetDedup, mem_dedupAux]
  simp

theorem charListLe_total : ∀ xs ys : List Char,
    charListLe xs ys = true ∨ charListLe ys xs = true
  | [], _ => Or.inl rfl
  | _ :: _, [] => Or.inr rfl
  | x :: xs, y :: ys => by
    rcases Nat.lt_trichotomy x.toNat y.toNat with h | h | h
    · left; simp [charListLe, h]
    · have h1 : ¬ x.toNat < y.toNat := by omega
      have h2 : ¬ y.toNat < x.toNat := by omega
      simpa [charListLe, h1, h2] using charListLe_total xs ys
    · right; simp [charListLe, h]

theorem charListLe_trans : ∀ xs ys zs : List Char,
    charListLe xs ys = true → charListLe ys zs = true → charListLe xs zs = true
  | [], _, _, _, _ => rfl
  | _ :: _, [], _, h1, _ => by simp [charListLe] at h1
  | _ :: _, _ :: _, [], _, h2 => by simp [charListLe] at h2
  | x :: xs, y :: ys, z :: zs, h1, h2 => by
    simp only [charListLe] at h1 h2 ⊢
    by_cases hxy : x.toNat < y.toNat
    · by_cases hyz : y.toNat < z.toNat
      · simp [Nat.lt_trans hxy hyz]
      · by_cases hzy : z.toNat < y.toNat
        · rw [if_neg hyz, if_pos hzy] at h2; simp at h2
        · have : x.toNat < z.toNat := by omega
          simp [this]
    · by_cases hyx : y.toNat < x.toNat
      · rw [if_neg hxy, if_pos hyx] at h1; simp at h1
      · rw [if_neg hxy, if_neg hyx] at h1
        by_cases hyz : y.toNat < z.toNat
        · have : x.toNat < z.toNat := by omega
          simp [this]
        · by_cases hzy : z.toNat < y.toNat
          · rw [if_neg hyz, if_pos hzy] at h2; simp at h2
          · rw [if_neg hyz, if_neg hzy] at h2
            have h3 : ¬ x.toNat < z.toNat := by omega
            have h4 : ¬ z.toNat < x.toNat := by omega
            rw [if_neg h3, if_neg h4]
            exact charListLe_trans xs ys zs h1 h2

theorem charListLe_antisymm : ∀ xs ys : List Char,
    charListLe xs ys = true → charListLe ys xs = true → xs = ys
  | [], [], _, _ => rfl
  | [], _ :: _, _, h2 => by simp [charListLe] at h2
  | _ :: _, [], h1, _ => by simp [charListLe] at h1
  | x :: xs, y :: ys, h1, h2 => by
    simp only [charListLe] at h1 h2
    by_cases hxy : x.toNat < y.toNat
    · have hyx : ¬ y.toNat < x.toNat := by omega
      rw [if_neg hyx, if_pos hxy] at h2; simp at h2
    · by_cases hyx : y.toNat < x.toNat
      · rw [if_neg hxy, if_pos hyx] at h1; simp at h1
      · have heq : x.toNat = y.toNat := by omega
        have hchar : x = y := by
          have hcongr := congrArg Char.ofNat heq
          rwa [Char.ofNat_toNat, Char.ofNat_toNat] at hcongr
        rw [if_neg hxy, if_neg hyx] at h1
        rw [if_neg hyx, if_neg hxy] at h2
        rw [hchar, charListLe_antisymm xs ys h1 h2]

instance : IsTotal String strLe :=
  ⟨fun a b => charListLe_total a.data b.data⟩

instance : IsTrans String strLe :=
  ⟨fun a b c h1 h2 => charListLe_trans a.data b.data c.data h1 h2⟩

instance : IsAntisymm String strLe :=
  ⟨fun a b h1 h2 => by
    have hd : a.data = b.data := charListLe_antisymm a.data b.data h1 h2
    cases a; cases b
    exact congrArg String.mk hd⟩

/-- The event comparison of the script is exactly permutation equivalence
of the two event lists. -/
theorem eventsEqual_iff_perm (a b : List String) :
    eventsEqual a b = true ↔ a.Perm b := by
  constructor
  · intro h
    have hs : List.insertionSort strLe a = List.insertionSort strLe b := by
      simpa [eventsEqual, sortEvents] using h
    have h1 : List.Perm a (List.insertionSort strLe b) := by
      rw [← hs]
      exact (List.perm_insertionSort strLe a).symm
    exact h1.trans (List.perm_insertionSort strLe b)
  · intro h
    have hs : sortEvents a = sortEvents b :=
      List.eq_of_perm_of_sorted
        ((List.perm_insertionSort strLe a).trans
          (h.trans (List.perm_insertionSort strLe b).symm))
        (List.sorted_insertionSort strLe a)
        (List.sorted_insertionSort strLe b)
    simp [eventsEqual, hs]

theorem find?_decomp {α : Type} (p : α → Bool) : ∀ (l : List α) (x : α),
    l.find? p = some x →
    p x = true ∧ ∃ pre post, l = pre ++ x :: post ∧ ∀ y ∈ pre, p y = false
  | [], x, h => by simp at h
  | a :: l, x, h => by
    by_cases ha : p a = true
    · rw [List.find?_cons_of_pos l ha] at h
      obtain rfl : a = x := by injection h
      exact ⟨ha, [], l, rfl, by simp⟩
    · rw [List.find?_cons_of_neg l ha] at h
      obtain ⟨hp, pre, post, hl, hpre⟩ := find?_decomp p l x h
      refine ⟨hp, a :: pre, post, by rw [hl, List.cons_append], ?_⟩
      intro y hy
      rcases List.mem_cons.mp hy with hy | hy
      · subst hy; exact Bool.not_eq_true _ ▸ (by simpa using ha)
      · exact hpre y hy

theorem find?_append_first {α : Type} (p : α → Bool) :
    ∀ (pre : List α) (x : α) (post : List α),
    (∀ y ∈ pre, p y = false) → p x = true →
    (pre ++ x :: post).find? p = some x
  | [], x, post, _, hx => by simpa using List.find?_cons_of_pos post hx
  | a :: pre, x, post, hpre, hx => by
    rw [List.cons_append, List.find?_cons_of_neg _ (by
      simp [hpre a (List.mem_cons_self a pre)])]
    exact find?_append_first p pre x post
      (fun y hy => hpre y (List.mem_cons_of_mem a hy)) hx

theorem toDigitsCore_length_le (b : Nat) : ∀ (f n : Nat) (ds : List Char),
    ds.length ≤ (Nat.toDigitsCore b f n ds).length
  | 0, _, _ => Nat.le_refl _
  | f + 1, n, ds => by
    simp only [Nat.toDigitsCore]
    split
    · simp
    · exact Nat.le_trans (by simp)
        (toDigitsCore_length_le b f (n / b) (Nat.digitChar (n % b) :: ds))

theorem toDigits_ne_nil (n : Nat) : Nat.toDigits 10 n ≠ [] := by
  show Nat.toDigitsCore 10 (n + 1) n [] ≠ []
  simp only [Nat.toDigitsCore]
  split
  · simp
  · intro h
    have hle := toDigitsCore_length_le 10 n (n / 10) [Nat.digitChar (n % 10)]
    rw [h] at hle
    simp at hle

theorem natRepr_ne_empty (n : Nat) : Nat.repr n ≠ "" := by
  intro h
  apply toDigits_ne_nil n
  exact congrArg String.data h

theorem lookupKV_self_of_nodup : ∀ (cfg : List (String × String)),
    (cfg.map Prod.fst).Nodup → ∀ kv ∈ cfg, lookupKV cfg kv.1 = some kv.2
  | [], _, kv, hm => by simp at hm
  | a :: l, hnd, kv, hm => by
    rcases List.mem_cons.mp hm with hm | hm
    · subst hm
      rw [lookupKV, List.find?_cons_of_pos _ (by simp)]
      rfl
    · have hne : a.1 ≠ kv.1 := by
        intro hEq
        have : kv.1 ∈ l.map Prod.fst := List.mem_map_of_mem Prod.fst hm
        rw [List.map_cons, List.nodup_cons] at hnd
        exact hnd.1 (hEq ▸ this)
      rw [lookupKV, List.find?_cons_of_neg _ (by simpa using hne)]
      exact lookupKV_self_of_nodup l
        (by rw [List.map_cons, List.nodup_cons] at hnd; exact hnd.2) kv hm

theorem isMatch_congr (hc hc' cfg : List (String × String))
    (h : ∀ kv ∈ cfg, lookupKV hc kv.1 = lookupKV hc' kv.1) :
    isMatch hc cfg = isMatch hc' cfg := by
  induction cfg with
  | nil => rfl
  | cons a l ih =>
      simp only [isMatch, List.all_cons] at *
      rw [h a (List.mem_cons_self a l),
        ih (fun kv hkv => h kv (List.mem_cons_of_mem a hkv))]

theorem isMatch_refl (cfg : List (String × String))
    (hnd : (cfg.map Prod.fst).Nodup) : isMatch cfg cfg = true := by
  rw [isMatch, List.all_eq_true]
  intro kv hkv
  simp [lookupKV_self_of_nodup cfg hnd kv hkv]

/-! Concrete fixtures used by witnesses and counterexamples. -/

/-- A build environment with team t, pipeline p, ATC base http://atc and
no ambient instance variables. -/
def envA : BuildEnv := ⟨"t", "p", "http://atc", none⟩

/-- A source with concourse_url http://c. -/
def srcA : Source := ⟨some "http://c", "http://api", "tok"⟩

/-- Params for org o, repo g, pipeline p, resource r, token k, no
instance variables, with the given operation and events. -/
def paramsWith (op : String) (events : Option (List String)) : Params :=
  ⟨"o", "g", op, some "p", "r", "k", events, none⟩

/-- The callback URL composed from envA, srcA and paramsWith. -/
def urlA : String :=
  "http://c/api/v1/teams/t/pipelines/p/resources/r/check/webhook?webhook_token=k"

/-- The hooks endpoint for srcA and paramsWith. -/
def epA : String := "http://api/repos/o/g/hooks"

/-- A server response hook for write calls. -/
def hookResp : Hook := ⟨9, [], []⟩

/-- An existing hook whose config carries an extra insecure_ssl field. -/
def hookW : Hook :=
  ⟨1, [("url", "u"), ("content-type", "json"), ("insecure_ssl", "0")], ["push"]⟩

/-! Claim theorems. -/

/-- C4: the matcher (bin/out.js line 101) selects a hook iff every
key/value pair of the desired config is present with an equal value in the
hook config (subset containment). Conjuncts: a selected hook matches and is
the first match in list order; no selection exactly when no hook matches
(a normal outcome, not an error); the first matching hook in list order is
selected; the test depends only on the lookups of the desired keys, so
extra fields on the existing hook never prevent a match; and a hook config
exactly equal to the desired config (whose keys are distinct, as the url
and content-type keys of the program always are) always matches. -/
theorem C4_matcher_subset_first (hooks : List Hook) (cfg : List (String × String)) :
    (∀ h, hooks.find? (fun hook => isMatch hook.config cfg) = some h →
      isMatch h.config cfg = true ∧
      ∃ pre post, hooks = pre ++ h :: post ∧
        ∀ g ∈ pre, isMatch g.config cfg = false)
    ∧ (hooks.find? (fun hook => isMatch hook.config cfg) = none ↔
        ∀ h ∈ hooks, isMatch h.config cfg = false)
    ∧ (∀ pre h post, hooks = pre ++ h :: post →
        (∀ g ∈ pre, isMatch g.config cfg = false) →
        isMatch h.config cfg = true →
        hooks.find? (fun hook => isMatch hook.config cfg) = some h)
    ∧ (∀ hc hc', (∀ kv ∈ cfg, lookupKV hc kv.1 = lookupKV hc' kv.1) →
        isMatch hc cfg = isMatch hc' cfg)
    ∧ ((cfg.map Prod.fst).Nodup → isMatch cfg cfg = true) := by
  refine ⟨?_, ?_, ?_, ?_, ?_⟩
  · intro h hf
    exact find?_decomp _ hooks h hf
  · rw [List.find?_eq_none]
    constructor
    · intro hall h hm
      have := hall h hm
      simpa using this
    · intro hall h hm
      simp [hall h hm]
  · intro pre h post hl hpre hm
    rw [hl]
    exact find?_append_first _ pre h post hpre hm
  · intro hc hc' h
    exact isMatch_congr hc hc' cfg h
  · exact isMatch_refl cfg

/-- C4 witness: with a single hook whose config equals the desired
url/content-type config extended by an insecure_ssl field, the matcher
selects it, and the exact-equality config matches itself. -/
theorem C4_matcher_subset_first_witness :
    ([hookW].find? (fun hook => isMatch hook.config (mkConfig "u")) = some hookW)
    ∧ isMatch (mkConfig "u") (mkConfig "u") = true :=
  ⟨(C4_matcher_subset_first [hookW] (mkConfig "u")).2.2.1 [] hookW [] rfl
      (by simp) (by decide),
   (C4_matcher_subset_first [hookW] (mkConfig "u")).2.2.2.2 (by decide)⟩

/-- C7: the desired event list used for reconciliation (bin/out.js lines
38-43) has no duplicates; the default singleton push list is substituted
exactly when the input events list is absent or empty; a non-empty input
list is never replaced by the default: the result is its Set-semantics
de-duplication, a sublist of it (original insertion order preserved) with
the same elements. -/
theorem C7_events_normalization (ev : Option (List String)) :
    (desiredEvents ev).Nodup
    ∧ (ev = none ∨ ev = some [] → desiredEvents ev = ["push"])
    ∧ (∀ l, ev = some l → l ≠ [] →
        desiredEvents ev = jsSetDedup l
        ∧ (desiredEvents ev).Sublist l
        ∧ ∀ x, x ∈ desiredEvents ev ↔ x ∈ l) := by
  refine ⟨?_, ?_, ?_⟩
  · exact jsSetDedup_nodup _
  · rintro (rfl | rfl) <;> rfl
  · rintro l rfl hne
    cases l with
    | nil => exact absurd rfl hne
    | cons a as =>
        refine ⟨rfl, jsSetDedup_sublist (a :: as), ?_⟩
        intro x
        exact mem_jsSetDedup x (a :: as)

/-- C7 witness: a duplicated two-element input list is de-duplicated and
not replaced by the default; an absent list is defaulted to push. -/
theorem C7_events_normalization_witness :
    desiredEvents (some ["push", "push", "x"]) = jsSetDedup ["push", "push", "x"]
    ∧ desiredEvents none = ["push"] :=
  ⟨((C7_events_normalization (some ["push", "push", "x"])).2.2
      ["push", "push", "x"] rfl (by simp)).1,
   (C7_events_normalization none).2.1 (Or.inl rfl)⟩

/-- An existing hook matching urlA whose event list repeats push. -/
def hookDupPush : Hook := ⟨5, mkConfig urlA, ["push", "push"]⟩

/-- An existing hook matching urlA with events push and pull_request. -/
def hookPP : Hook := ⟨6, mkConfig urlA, ["push", "pull_request"]⟩

/-- C3 counterexample: the claim says any two event lists that denote the
same set are judged equal. The lists push,push and push denote the same
set, yet the comparison at bin/out.js line 107 (isEqual of the sortBy of
each list) judges them different, and on a matched hook with events
push,push against desired events push the engine issues a PATCH write
instead of the NoOp the claim requires. -/
theorem C3_counterexample :
    (["push", "push"] : List String).toFinset = (["push"] : List String).toFinset
    ∧ eventsEqual ["push", "push"] ["push"] = false
    ∧ countWrites (processWebhook envA srcA (paramsWith "create" (some ["push"]))
        (Except.ok [hookDupPush]) (Except.ok hookResp) 0) = 1 := by
  refine ⟨by decide, by decide, by decide⟩

/-- C3 (amended): the Update-versus-NoOp comparison is sorted-list
(multiset) equality: it judges two event lists equal exactly when they are
permutations of each other, hence it is invariant under permutation of
either list, and the concrete example (existing events push,pull_request
versus desired pull_request,push) yields NoOp: only the GET is issued and
the matched hook id 6 is emitted. Two lists denoting the same set but with
different duplicate multiplicities are judged different. -/
theorem C3_events_comparison_permutation :
    (∀ a b : List String, eventsEqual a b = true ↔ List.Perm a b)
    ∧ processWebhook envA srcA (paramsWith "create" (some ["pull_request", "push"]))
        (Except.ok [hookPP]) (Except.ok hookResp) 0 =
      ⟨[RemoteCall.get epA], some "6", 0⟩ :=
  ⟨eventsEqual_iff_perm, by decide⟩

/-- C1 counterexample: under the create intent with a matched hook whose
event set (as a set) equals the desired event set — existing events
release,release, desired events release — the claim requires no remote
write, but the code compares sorted lists, finds them different, and
issues a PATCH: exactly one write call. -/
theorem C1_counterexample :
    (["release", "release"] : List String).toFinset =
      (["release"] : List String).toFinset
    ∧ countWrites (processWebhook envA srcA (paramsWith "create" (some ["release"]))
        (Except.ok [⟨5, mkConfig urlA, ["release", "release"]⟩])
        (Except.ok hookResp) 0) = 1 := by
  refine ⟨by decide, by decide⟩

/-- C1 (amended): under the create intent, with the callback URL composed
successfully, reconciliation is a three-way case split on the matcher:
no match issues a POST of the desired body to the hooks endpoint; a match
whose events are not a permutation of the desired (multiset-)events issues
a PATCH of the desired body addressed to the matched hook id; a match with
permutation-equal events issues no write and emits the matched hook id
unchanged. (The claim said set-equality of events; the code compares the
sorted lists, i.e. multisets.) -/
theorem C1_create_reconciliation (env : BuildEnv) (source : Source)
    (params : Params) (hooks : List Hook) (writeResp : Except Unit Hook)
    (now : Nat) (url : String)
    (hop : params.operation = "create")
    (hurl : buildUrl env source params = Except.ok url) :
    (hooks.find? (fun hook => isMatch hook.config (mkConfig url)) = none →
      (processWebhook env source params (Except.ok hooks) writeResp now).calls =
        [RemoteCall.get (webhookEndpoint source params),
         RemoteCall.post (webhookEndpoint source params)
           (mkBody url (desiredEvents params.events))])
    ∧ (∀ h, hooks.find? (fun hook => isMatch hook.config (mkConfig url)) = some h →
        ¬ List.Perm h.events (desiredEvents params.events) →
        (processWebhook env source params (Except.ok hooks) writeResp now).calls =
          [RemoteCall.get (webhookEndpoint source params),
           RemoteCall.patch (webhookEndpoint source params ++ "/" ++ Nat.repr h.id)
             (mkBody url (desiredEvents params.events))])
    ∧ (∀ h, hooks.find? (fun hook => isMatch hook.config (mkConfig url)) = some h →
        List.Perm h.events (desiredEvents params.events) →
        processWebhook env source params (Except.ok hooks) writeResp now =
          ⟨[RemoteCall.get (webhookEndpoint source params)],
           some (Nat.repr h.id), 0⟩) := by
  refine ⟨?_, ?_, ?_⟩
  · intro hfind
    simp only [processWebhook, hurl, hfind, hop]
    cases writeResp <;> simp
  · intro h hfind hperm
    have hev : eventsEqual h.events (desiredEvents params.events) = false := by
      rw [← Bool.not_eq_true, eventsEqual_iff_perm]
      exact hperm
    simp only [processWebhook, hurl, hfind, hop, hev]
    cases writeResp <;> simp
  · intro h hfind hperm
    have hev : eventsEqual h.events (desiredEvents params.events) = true :=
      (eventsEqual_iff_perm _ _).mpr hperm
    simp only [processWebhook, hurl, hfind, hop, hev]
    simp

/-- C1 witness: with no existing hooks the create intent issues the GET
followed by a POST of the desired body. -/
theorem C1_create_reconciliation_witness :
    (processWebhook envA srcA (paramsWith "create" (some ["release"]))
        (Except.ok []) (Except.ok hookResp) 0).calls =
      [RemoteCall.get epA, RemoteCall.post epA (mkBody urlA ["release"])] :=
  (C1_create_reconciliation envA srcA (paramsWith "create" (some ["release"]))
    [] (Except.ok hookResp) 0 urlA rfl rfl).1 rfl

/-- C2: under the delete intent, with the callback URL composed
successfully, a run with no matching hook never fails: no write call is
issued and a successful result is emitted whose id is the synthesized
current-timestamp value (the now argument models Date.now() at bin/out.js
line 117); when a matching hook exists, exactly one DELETE addressed to
that hook id is issued. -/
theorem C2_delete_reconciliation (env : BuildEnv) (source : Source)
    (params : Params) (hooks : List Hook) (writeResp : Except Unit Hook)
    (now : Nat) (url : String)
    (hop : params.operation = "delete")
    (hurl : buildUrl env source params = Except.ok url) :
    (hooks.find? (fun hook => isMatch hook.config (mkConfig url)) = none →
      processWebhook env source params (Except.ok hooks) writeResp now =
        ⟨[RemoteCall.get (webhookEndpoint source params)],
         some (Nat.repr now), 0⟩)
    ∧ (∀ h, hooks.find? (fun hook => isMatch hook.config (mkConfig url)) = some h →
        (processWebhook env source params (Except.ok hooks) writeResp now).calls =
          [RemoteCall.get (webhookEndpoint source params),
           RemoteCall.delete
             (webhookEndpoint source params ++ "/" ++ Nat.repr h.id)]) := by
  constructor
  · intro hfind
    simp only [processWebhook, hurl, hfind, hop]
    simp
  · intro h hfind
    simp only [processWebhook, hurl, hfind, hop]
    cases writeResp <;> simp

/-- C2 witness: deleting with no existing hooks emits the timestamp id 42
with exit code 0 and no write; deleting with a matching hook issues
exactly one DELETE addressed to its id. -/
theorem C2_delete_reconciliation_witness :
    processWebhook envA srcA (paramsWith "delete" (some ["push"]))
        (Except.ok []) (Except.ok hookResp) 42 =
      ⟨[RemoteCall.get epA], some "42", 0⟩
    ∧ (processWebhook envA srcA (paramsWith "delete" (some ["push"]))
        (Except.ok [hookPP]) (Except.ok hookResp) 42).calls =
      [RemoteCall.get epA, RemoteCall.delete (epA ++ "/" ++ "6")] :=
  ⟨(C2_delete_reconciliation envA srcA (paramsWith "delete" (some ["push"]))
      [] (Except.ok hookResp) 42 urlA rfl rfl).1 rfl,
   (C2_delete_reconciliation envA srcA (paramsWith "delete" (some ["push"]))
      [hookPP] (Except.ok hookResp) 42 urlA rfl rfl).2 hookPP (by decide)⟩

/-- C10: for an operation that is neither create nor delete, with the
callback URL composed and the hook list fetched successfully, the run
issues the GET on the hooks endpoint and nothing else, emits nothing on
stdout, and terminates without error (exit code 0): the switch at
bin/out.js line 103 has no default branch. -/
theorem C10_unknown_operation (env : BuildEnv) (source : Source)
    (params : Params) (hooks : List Hook) (writeResp : Except Unit Hook)
    (now : Nat) (url : String)
    (h1 : params.operation ≠ "create") (h2 : params.operation ≠ "delete")
    (hurl : buildUrl env source params = Except.ok url) :
    processWebhook env source params (Except.ok hooks) writeResp now =
      ⟨[RemoteCall.get (webhookEndpoint source params)], none, 0⟩ := by
  have hb1 : (params.operation == "create") = false := by
    simpa using h1
  have hb2 : (params.operation == "delete") = false := by
    simpa using h2
  cases hfind : hooks.find? (fun hook => isMatch hook.config (mkConfig url)) with
  | none => simp only [processWebhook, hurl, hfind, hb1, hb2]; simp
  | some h => simp only [processWebhook, hurl, hfind, hb1, hb2]; simp

/-- C10 witness: a run with operation update fetches the hook list, issues
no write, emits nothing and exits 0. -/
theorem C10_unknown_operation_witness :
    processWebhook envA srcA (paramsWith "update" (some ["push"]))
        (Except.ok [hookPP]) (Except.ok hookResp) 0 =
      ⟨[RemoteCall.get epA], none, 0⟩ :=
  C10_unknown_operation envA srcA (paramsWith "update" (some ["push"]))
    [hookPP] (Except.ok hookResp) 0 urlA (by decide) (by decide) rfl

/-- C8: when the ambient BUILD_PIPELINE_INSTANCE_VARS value is present but
malformed, URL composition raises the error (bin/out.js line 66) before
any remote call: the run makes no list, create, update or delete request,
emits nothing, and dies with a non-zero exit code. -/
theorem C8_malformed_instance_vars (env : BuildEnv) (source : Source)
    (params : Params) (listResp : Except Unit (List Hook))
    (writeResp : Except Unit Hook) (now : Nat) (e : String)
    (henv : env.build_pipeline_instance_vars = some (Except.error e)) :
    runModel env (StdinInput.valid source params) listResp writeResp now =
      ⟨[], none, 1⟩ := by
  have hiv : buildInstanceVariables env params = Except.error e := by
    simp [buildInstanceVariables, henv]
  have hurl : buildUrl env source params = Except.error e := by
    simp [buildUrl, hiv]
  simp [runModel, processWebhook, hurl]

/-- C8 witness: a concrete environment whose instance-variable value fails
to parse produces no remote call, no output and exit code 1. -/
theorem C8_malformed_instance_vars_witness :
    runModel ⟨"t", "p", "http://atc", some (Except.error "bad json")⟩
        (StdinInput.valid srcA (paramsWith "create" (some ["push"])))
        (Except.ok []) (Except.ok hookResp) 0 = ⟨[], none, 1⟩ :=
  C8_malformed_instance_vars ⟨"t", "p", "http://atc", some (Except.error "bad json")⟩
    srcA (paramsWith "create" (some ["push"])) (Except.ok []) (Except.ok hookResp)
    0 "bad json" rfl

/-- A build environment whose ambient instance variables parse to a single
entry env=prod. -/
def envIV : BuildEnv := ⟨"t", "p", "http://atc", some (Except.ok [("env", "prod")])⟩

/-- Params whose pipeline_instance_vars carry the same single entry
env=prod. -/
def prmIV : Params := ⟨"o", "g", "create", some "p", "r", "k", none, some [("env", "prod")]⟩

/-- The URL composed from envIV, srcA and prmIV: the double quotes around
each value are percent-encoded to %22 by encodeURI, and the env fragment
appears twice. -/
def urlIV : String :=
  "http://c/api/v1/teams/t/pipelines/p/resources/r/check/webhook?webhook_token=k&vars.env=%22prod%22&vars.env=%22prod%22"

/-- C5 counterexample: with ambient instance vars env=prod and param
instance vars env=prod, the claim says the literal fragment
&vars.env="prod" appears twice in the composed URL; in fact encodeURI
percent-encodes the double quote, so that literal fragment appears zero
times in the composed URL (the encoded form appears twice). -/
theorem C5_counterexample :
    buildUrl envIV srcA prmIV = Except.ok urlIV
    ∧ countSubstr ("&vars.env=" ++ dq ++ "prod" ++ dq) urlIV = 0 := by
  exact ⟨rfl, by decide⟩

/-- C5 (amended): instance-variable fragments come from the two sources
concatenated in fixed order, ambient entries first, then param entries,
with no merging or de-duplication; with env=prod in both sources the
percent-encoded fragment &vars.env=%22prod%22 appears twice in the
composed URL (before percent-encoding each fragment carries literal
double quotes). -/
theorem C5_instance_vars_concatenated :
    (∀ (env : BuildEnv) (params : Params) kvs pvs,
      env.build_pipeline_instance_vars = some (Except.ok kvs) →
      params.pipeline_instance_vars = some pvs →
      buildInstanceVariables env params = Except.ok (fragStr kvs ++ fragStr pvs))
    ∧ buildUrl envIV srcA prmIV = Except.ok urlIV
    ∧ countSubstr "&vars.env=%22prod%22" urlIV = 2 := by
  refine ⟨?_, rfl, by decide⟩
  intro env params kvs pvs h1 h2
  simp [buildInstanceVariables, h1, h2]

/-- C5 witness: the two env=prod sources concatenate to the two fragments
in order, without merging. -/
theorem C5_instance_vars_concatenated_witness :
    buildInstanceVariables envIV prmIV =
      Except.ok (fragStr [("env", "prod")] ++ fragStr [("env", "prod")]) :=
  C5_instance_vars_concatenated.1 envIV prmIV [("env", "prod")] [("env", "prod")]
    rfl rfl

/-- The source of the concrete URL-composition example of the claim. -/
def srcEx : Source := ⟨some "https://ci.example.com", "http://api", "tok"⟩

/-- The params of the concrete URL-composition example of the claim. -/
def prmEx : Params := ⟨"o", "g", "create", some "p", "r", "tok", none, none⟩

/-- A source whose concourse_url is present but the empty string. -/
def srcEmpty : Source := ⟨some "", "http://api", "tok"⟩

/-- C6 counterexample: the claim says the base URL is source.concourse_url
whenever it is present. With concourse_url present but empty — a falsy
value in JS — the code takes the ATC branch (bin/out.js line 50), so the
composed URL uses the ambient ATC base, not the present concourse_url. -/
theorem C6_counterexample :
    srcEmpty.concourse_url = some ""
    ∧ buildUrl envA srcEmpty prmEx =
        Except.ok (encodeURI (envA.atc_external_url ++ urlTail envA prmEx ""))
    ∧ encodeURI (envA.atc_external_url ++ urlTail envA prmEx "") ≠
        encodeURI (Option.getD srcEmpty.concourse_url "x" ++ urlTail envA prmEx "") := by
  exact ⟨rfl, rfl, by decide⟩

/-- C6 (amended): composing with concourse_url https://ci.example.com,
team t, pipeline p, resource r, token tok and no instance variables yields
exactly the expected string; in general the base URL is
source.concourse_url when present and non-empty (JS truthiness) and the
ambient ATC external URL otherwise, with the identical tail in both cases,
the whole string passed through encodeURI as a single URI. -/
theorem C6_url_composition :
    buildUrl envA srcEx prmEx =
      Except.ok
        "https://ci.example.com/api/v1/teams/t/pipelines/p/resources/r/check/webhook?webhook_token=tok"
    ∧ (∀ (env : BuildEnv) (source : Source) (params : Params) ivs c,
        buildInstanceVariables env params = Except.ok ivs →
        source.concourse_url = some c → c ≠ "" →
        buildUrl env source params =
          Except.ok (encodeURI (c ++ urlTail env params ivs)))
    ∧ (∀ (env : BuildEnv) (source : Source) (params : Params) ivs,
        buildInstanceVariables env params = Except.ok ivs →
        source.concourse_url = none →
        buildUrl env source params =
          Except.ok (encodeURI (env.atc_external_url ++ urlTail env params ivs))) := by
  refine ⟨rfl, ?_, ?_⟩
  · intro env source params ivs c hiv hc hne
    simp only [buildUrl, hiv]
    rw [hc]
    have ht : jsTruthyStr (some c) = true := by
      simp [jsTruthyStr, hne]
    simp [ht]
  · intro env source params ivs hiv hc
    simp only [buildUrl, hiv]
    rw [hc]
    simp [jsTruthyStr]

/-- C6 witness: the general base-URL characterization applied to the
concrete example source, and to a source with no concourse_url. -/
theorem C6_url_composition_witness :
    buildUrl envA srcEx prmEx =
      Except.ok (encodeURI ("https://ci.example.com" ++ urlTail envA prmEx ""))
    ∧ buildUrl envA ⟨none, "http://api", "tok"⟩ prmEx =
      Except.ok (encodeURI ("http://atc" ++ urlTail envA prmEx "")) :=
  ⟨C6_url_composition.2.1 envA srcEx prmEx "" "https://ci.example.com" rfl rfl
      (by decide),
   C6_url_composition.2.2 envA ⟨none, "http://api", "tok"⟩ prmEx "" rfl rfl⟩

/-- C9 counterexample: a run whose operation is update — neither create
nor delete — emits nothing on stdout yet terminates successfully with exit
code 0, contradicting the claim that no run emits nothing and still
succeeds. (A run with empty stdin behaves the same way.) -/
theorem C9_counterexample :
    (runModel envA (StdinInput.valid srcA (paramsWith "update" (some ["push"])))
        (Except.ok []) (Except.ok hookResp) 0).emitted = none
    ∧ (runModel envA (StdinInput.valid srcA (paramsWith "update" (some ["push"])))
        (Except.ok []) (Except.ok hookResp) 0).exitCode = 0
    ∧ (runModel envA StdinInput.empty (Except.ok []) (Except.ok hookResp) 0).emitted
        = none
    ∧ (runModel envA StdinInput.empty (Except.ok []) (Except.ok hookResp) 0).exitCode
        = 0 := by
  exact ⟨by decide, by decide, rfl, rfl⟩

/-- C9 (amended): every run whose operation is create or delete has exactly
one of two outcomes: either one well-formed result with a non-empty id is
emitted and the run exits 0, or nothing is emitted and the run exits with
a non-zero code; a run with malformed input emits nothing and fails.
Exceptions forced by the counterexample: a run with empty stdin, or whose
operation is neither create nor delete, emits nothing and still exits 0. -/
theorem C9_two_outcomes :
    (∀ (env : BuildEnv) (source : Source) (params : Params)
      (listResp : Except Unit (List Hook)) (writeResp : Except Unit Hook)
      (now : Nat),
      params.operation = "create" ∨ params.operation = "delete" →
      (∃ s, (runModel env (StdinInput.valid source params) listResp writeResp
          now).emitted = some s
        ∧ s ≠ ""
        ∧ (runModel env (StdinInput.valid source params) listResp writeResp
            now).exitCode = 0)
      ∨ ((runModel env (StdinInput.valid source params) listResp writeResp
            now).emitted = none
        ∧ (runModel env (StdinInput.valid source params) listResp writeResp
            now).exitCode ≠ 0))
    ∧ (∀ (env : BuildEnv) listResp writeResp (now : Nat),
        runModel env StdinInput.malformed listResp writeResp now = ⟨[], none, 1⟩) := by
  constructor
  · intro env source params listResp writeResp now hop
    simp only [runModel]
    cases hurl : buildUrl env source params with
    | error e =>
        right
        simp [processWebhook, hurl]
    | ok url =>
        cases listResp with
        | error u =>
            right
            simp [processWebhook, hurl]
        | ok hooks =>
            cases hfind : hooks.find? (fun hook => isMatch hook.config (mkConfig url)) with
            | none =>
                rcases hop with hop | hop
                · cases writeResp with
                  | error u =>
                      right
                      simp only [processWebhook, hurl, hfind, hop]
                      simp
                  | ok h =>
                      left
                      refine ⟨Nat.repr h.id, ?_, natRepr_ne_empty h.id, ?_⟩ <;>
                        · simp only [processWebhook, hurl, hfind, hop]
                          simp
                · left
                  refine ⟨Nat.repr now, ?_, natRepr_ne_empty now, ?_⟩ <;>
                    · simp only [processWebhook, hurl, hfind, hop]
                      simp
            | some h =>
                rcases hop with hop | hop
                · cases hev : eventsEqual h.events (desiredEvents params.events) with
                  | true =>
                      left
                      refine ⟨Nat.repr h.id, ?_, natRepr_ne_empty h.id, ?_⟩ <;>
                        · simp only [processWebhook, hurl, hfind, hop, hev]
                          simp
                  | false =>
                      cases writeResp with
                      | error u =>
                          right
                          simp only [processWebhook, hurl, hfind, hop, hev]
                          simp
                      | ok h2 =>
                          left
                          refine ⟨Nat.repr h2.id, ?_, natRepr_ne_empty h2.id, ?_⟩ <;>
                            · simp only [processWebhook, hurl, hfind, hop, hev]
                              simp
                · cases writeResp with
                  | error u =>
                      right
                      simp only [processWebhook, hurl, hfind, hop]
                      simp
                  | ok h2 =>
                      left
                      refine ⟨Nat.repr h.id, ?_, natRepr_ne_empty h.id, ?_⟩ <;>
                        · simp only [processWebhook, hurl, hfind, hop]
                          simp
  · intro env listResp writeResp now
    rfl

/-- C9 witness: a delete run with no existing hooks takes the successful
branch of the dichotomy. -/
theorem C9_two_outcomes_witness :
    (∃ s, (runModel envA (StdinInput.valid srcA (paramsWith "delete" none))
        (Except.ok []) (Except.ok hookResp) 7).emitted = some s
      ∧ s ≠ ""
      ∧ (runModel envA (StdinInput.valid srcA (paramsWith "delete" none))
          (Except.ok []) (Except.ok hookResp) 7).exitCode = 0)
    ∨ ((runModel envA (StdinInput.valid srcA (paramsWith "delete" none))
          (Except.ok []) (Except.ok hookResp) 7).emitted = none
      ∧ (runModel envA (StdinInput.valid srcA (paramsWith "delete" none))
          (Except.ok []) (Except.ok hookResp) 7).exitCode ≠ 0) :=
  C9_two_outcomes.1 envA srcA (paramsWith "delete" none) (Except.ok [])
    (Except.ok hookResp) 7 (Or.inr rfl)

end GithubWebhookResource
